import Mathlib

/-!
Verification of the nfexporter metric exporter (main.go) against its
natural-language specification.  The Go source is shallowly embedded:
the metric record, the collector state (a map from ident to a list of
records), the Prometheus `Describe`/`Collect` methods, the shutdown
handler and the startup sequence become Lean definitions; the metric
store mutation entry point, whose Go source lies outside the provided
file, is modelled from the specification text.
-/

set_option autoImplicit false

namespace Nfexporter

/-- One metric record, as read by `Collect` in main.go: an exporter id,
an uptime and twelve cumulative counters (flows, packets and bytes, each
broken out by tcp, udp, icmp, other).  Go `uint64` fields are embedded as
`Nat`; they stay below `2 ^ 64` in the running program but no arithmetic
in `Collect` can overflow, so no reduction modulo `2 ^ 64` is needed. -/
structure Metric where
  exporterID : Nat
  uptime : Nat
  numFlows_tcp : Nat
  numFlows_udp : Nat
  numFlows_icmp : Nat
  numFlows_other : Nat
  numPackets_tcp : Nat
  numPackets_udp : Nat
  numPackets_icmp : Nat
  numPackets_other : Nat
  numBytes_tcp : Nat
  numBytes_udp : Nat
  numBytes_icmp : Nat
  numBytes_other : Nat
  deriving DecidableEq, Repr

/-- The shared store iterated by `Collect`: the Go `metricList` map from
ident to a slice of records, embedded as an association list. -/
abbrev Store : Type := List (String × List Metric)

/-- The four metric families declared in main.go (uptime gauge and the
flows, packets, bytes counter families). -/
inductive MetricName where
  | uptime
  | flows
  | packets
  | bytes
  deriving DecidableEq, Repr

/-- Prometheus value kinds used by main.go. -/
inductive ValueType where
  | counter
  | gauge
  deriving DecidableEq, Repr

/-- A Prometheus metric description, as built by `prometheus.NewDesc` in
main.go: fully qualified name, help string and variable label names. -/
structure Desc where
  fqName : String
  help : String
  variableLabels : List String
  deriving DecidableEq, Repr

/-- The `nfsen_collector_uptime` description from main.go. -/
def uptime : Desc :=
  { fqName := "nfsen_collector_uptime"
    help := "nfsen uptime."
    variableLabels := ["version"] }

/-- The `nfsen_collector_flows` description from main.go. -/
def flowsReceived : Desc :=
  { fqName := "nfsen_collector_flows"
    help := "How many flows have been received (per ident and protocol (tcp/udp/icmp/other))."
    variableLabels := ["ident", "exporter", "proto"] }

/-- The `nfsen_collector_packets` description from main.go. -/
def packetsReceived : Desc :=
  { fqName := "nfsen_collector_packets"
    help := "How many packets have been received (per ident and protocol) (tcp/udp/icmp/other)."
    variableLabels := ["ident", "exporter", "proto"] }

/-- The `nfsen_collector_bytes` description from main.go. -/
def bytesReceived : Desc :=
  { fqName := "nfsen_collector_bytes"
    help := "How many bytes have been received (per ident and protocol) (tcp/udp/icmp/other)."
    variableLabels := ["ident", "exporter", "proto"] }

/-- `Describe` from main.go: sends the four static descriptions, in
source order, independent of any store state. -/
def Describe : List Desc :=
  [uptime, flowsReceived, packetsReceived, bytesReceived]

/-- The least `k ≤ 11` with `n < 2 ^ (53 + k)`: how many low bits a
64-bit value loses when converted to an IEEE-754 double.  Total for
every `n < 2 ^ 64`. -/
def f64exp (n : Nat) : Nat :=
  if n < 2 ^ 53 then 0
  else if n < 2 ^ 54 then 1
  else if n < 2 ^ 55 then 2
  else if n < 2 ^ 56 then 3
  else if n < 2 ^ 57 then 4
  else if n < 2 ^ 58 then 5
  else if n < 2 ^ 59 then 6
  else if n < 2 ^ 60 then 7
  else if n < 2 ^ 61 then 8
  else if n < 2 ^ 62 then 9
  else if n < 2 ^ 63 then 10
  else 11

/-- The Go conversion `float64(n)` for a `uint64` value `n`, expressed
on integers: every double produced from a `uint64` is an integer, namely
`n` rounded to the nearest multiple of `2 ^ f64exp n`, ties to even
significand (IEEE-754 round-to-nearest-even, the rounding the Go
specification prescribes for this conversion). -/
def float64ofUInt64 (n : Nat) : Nat :=
  let k := f64exp n
  if k = 0 then n
  else
    let q := n / 2 ^ k
    let r := n % 2 ^ k
    let half := 2 ^ (k - 1)
    if r < half then q * 2 ^ k
    else if half < r then (q + 1) * 2 ^ k
    else if q % 2 = 0 then q * 2 ^ k else (q + 1) * 2 ^ k

/-- One sample sent on the channel by `Collect`: which description it
instantiates, the Prometheus value kind, the value (a double holding an
integer, see `float64ofUInt64`) and the label values in order. -/
structure Sample where
  name : MetricName
  vtype : ValueType
  value : Nat
  labels : List String
  deriving DecidableEq, Repr

/-- The twelve samples `Collect` emits for one record, in source order
(main.go lines 121-137).  The two samples of the bytes family for the
icmp and other classes read the packet fields, exactly as the source
does on lines 136-137. -/
def collectRecord (ident : String) (m : Metric) : List Sample :=
  let exporterStr := Nat.repr m.exporterID
  [ { name := .flows, vtype := .counter, value := float64ofUInt64 m.numFlows_tcp, labels := [ident, exporterStr, "tcp"] }
  , { name := .flows, vtype := .counter, value := float64ofUInt64 m.numFlows_udp, labels := [ident, exporterStr, "udp"] }
  , { name := .flows, vtype := .counter, value := float64ofUInt64 m.numFlows_icmp, labels := [ident, exporterStr, "icmp"] }
  , { name := .flows, vtype := .counter, value := float64ofUInt64 m.numFlows_other, labels := [ident, exporterStr, "other"] }
  , { name := .packets, vtype := .counter, value := float64ofUInt64 m.numPackets_tcp, labels := [ident, exporterStr, "tcp"] }
  , { name := .packets, vtype := .counter, value := float64ofUInt64 m.numPackets_udp, labels := [ident, exporterStr, "udp"] }
  , { name := .packets, vtype := .counter, value := float64ofUInt64 m.numPackets_icmp, labels := [ident, exporterStr, "icmp"] }
  , { name := .packets, vtype := .counter, value := float64ofUInt64 m.numPackets_other, labels := [ident, exporterStr, "other"] }
  , { name := .bytes, vtype := .counter, value := float64ofUInt64 m.numBytes_tcp, labels := [ident, exporterStr, "tcp"] }
  , { name := .bytes, vtype := .counter, value := float64ofUInt64 m.numBytes_udp, labels := [ident, exporterStr, "udp"] }
  , { name := .bytes, vtype := .counter, value := float64ofUInt64 m.numPackets_icmp, labels := [ident, exporterStr, "icmp"] }
  , { name := .bytes, vtype := .counter, value := float64ofUInt64 m.numPackets_other, labels := [ident, exporterStr, "other"] } ]

/-- The full sample sequence of one `Collect` call: both range loops of
main.go lines 119-139, flattened in iteration order. -/
def Collect (store : Store) : List Sample :=
  store.flatMap (fun p => p.2.flatMap (collectRecord p.1))

/-- Events of one `Collect` call that are visible to other threads:
taking the global mutex, sending a sample on the channel, releasing the
mutex. -/
inductive CollectEvent where
  | lock
  | unlock
  | send (s : Sample)
  deriving DecidableEq, Repr

/-- The event trace of `Collect` (main.go lines 118-140): the mutex is
taken, every sample of every record is sent on the channel, and only
then is the mutex released. -/
def CollectTrace (store : Store) : List CollectEvent :=
  [CollectEvent.lock] ++ (Collect store).map CollectEvent.send ++ [CollectEvent.unlock]

/-- Actions of the goroutine installed by `SetupCloseHandler` once a
SIGINT or SIGTERM arrives (main.go lines 149-153). -/
inductive ShutdownEvent where
  | print (msg : String)
  | closeListener
  | removeFile (path : String)
  | exitProcess (code : Nat)
  deriving DecidableEq, Repr

/-- The shutdown sequence of `SetupCloseHandler` for a given socket
path: print, close the socket handler, remove the socket file, exit
with status 0, in source order. -/
def closeHandlerOnSignal (socketPath : String) : List ShutdownEvent :=
  [ ShutdownEvent.print "Exit exporter\n"
  , ShutdownEvent.closeListener
  , ShutdownEvent.removeFile socketPath
  , ShutdownEvent.exitProcess 0 ]

/-- Steps of `main` (main.go lines 157-185) that are externally
observable: flag parsing, exporter registration, the socket bind
attempt, the fatal exit on bind failure, close-handler installation,
the socket accept loop start, and the HTTP transport setup and start. -/
inductive MainEvent where
  | flagParse
  | registerExporter
  | socketOpen
  | fatalExit (code : Nat)
  | setupCloseHandler
  | socketRun
  | httpHandle
  | httpListen
  deriving DecidableEq, Repr

/-- The event trace of `main`, parameterised by the outcome of
`socketHandler.Open()`: `some err` means the bind failed with error
`err`, `none` means it succeeded.  On failure `log.Fatal` exits the
process with status 1 before any HTTP setup; on success the close
handler is installed, the accept loop starts, and the HTTP transport is
set up and started. -/
def mainTrace (openErr : Option String) : List MainEvent :=
  [MainEvent.flagParse, MainEvent.registerExporter, MainEvent.socketOpen] ++
    match openErr with
    | some _ => [MainEvent.fatalExit 1]
    | none =>
        [ MainEvent.setupCloseHandler
        , MainEvent.socketRun
        , MainEvent.httpHandle
        , MainEvent.httpListen ]

/-- Modelled from the spec: replacement within one ident's record list.
The Go source of the metric store mutation (the file defining
`metricList` and the socket frame handler) is not among the provided
sources; section 4.2 of the specification states that `Upsert(record)`
inserts or replaces the record keyed by (ident, exporterID).  Here the
record list of a single ident is scanned and the first record with the
incoming exporterID is replaced; if none exists the record is
appended at the end. -/
def upsertRecords (ms : List Metric) (m : Metric) : List Metric :=
  match ms with
  | [] => [m]
  | x :: rest =>
      if x.exporterID = m.exporterID then m :: rest
      else x :: upsertRecords rest m

/-- Modelled from the spec: the `Upsert` entry point of the Metric
Store (section 4.2), whose Go source is not among the provided files.
Inserts or replaces the record keyed by (ident, exporterID): the entry
of `ident` is located and `upsertRecords` replaces or appends within
it; a never-before-seen ident gets a fresh entry. -/
def Upsert (store : Store) (ident : String) (m : Metric) : Store :=
  match store with
  | [] => [(ident, [m])]
  | (i, ms) :: rest =>
      if i = ident then (i, upsertRecords ms m) :: rest
      else (i, ms) :: Upsert rest ident m

/-- Lookup of the record stored for a given (ident, exporterID) pair:
the observation a snapshot reader makes of one key of the store. -/
def lookupRecord (store : Store) (ident : String) (eid : Nat) : Option Metric :=
  match store with
  | [] => none
  | (i, ms) :: rest =>
      if i = ident then ms.find? (fun x => x.exporterID == eid)
      else lookupRecord rest ident eid

/-- Well-formedness of the store: idents are pairwise distinct, and
within each ident entry the exporterIDs are pairwise distinct, so that
(ident, exporterID) identifies at most one record. -/
def WFStore (store : Store) : Prop :=
  (store.map Prod.fst).Nodup ∧ ∀ p ∈ store, (p.2.map Metric.exporterID).Nodup

/-- Total number of records held in the store. -/
def recordCount (store : Store) : Nat :=
  (store.map (fun p => p.2.length)).sum

/-- A concrete record whose byte counters differ from its packet
counters in every protocol class, making the byte/packet aliasing of
main.go lines 136-137 observable. -/
def c1metric : Metric :=
  { exporterID := 7
    uptime := 60
    numFlows_tcp := 100
    numFlows_udp := 20
    numFlows_icmp := 3
    numFlows_other := 4
    numPackets_tcp := 1000
    numPackets_udp := 200
    numPackets_icmp := 7
    numPackets_other := 13
    numBytes_tcp := 5000
    numBytes_udp := 800
    numBytes_icmp := 5
    numBytes_other := 11 }

/-- A concrete one-record store under ident `live`. -/
def c1store : Store := [("live", [c1metric])]

/-- The first sample `Collect` emits for the record `c1metric` under
ident `live`: the tcp flows counter. -/
def c2sample : Sample :=
  { name := MetricName.flows, vtype := ValueType.counter,
    value := 100, labels := ["live", "7", "tcp"] }

/-- A first report for the pair (live, 7): tcp flows 100. -/
def c3A : Metric := c1metric

/-- A later report for the same pair (live, 7): tcp flows 150, the
end-to-end scenario of section 8 of the specification. -/
def c3B : Metric := { c1metric with numFlows_tcp := 150 }

theorem f64exp_eq_zero (n : Nat) (h : n < 2 ^ 53) : f64exp n = 0 := by
  unfold f64exp
  rw [if_pos h]

theorem length_collectRecord (ident : String) (m : Metric) :
    (collectRecord ident m).length = 12 := rfl

theorem length_flatMap_collectRecord (ident : String) (ms : List Metric) :
    (ms.flatMap (collectRecord ident)).length = 12 * ms.length := by
  induction ms with
  | nil => rfl
  | cons m rest ih =>
      simp only [List.flatMap_cons, List.length_append, ih, length_collectRecord,
        List.length_cons]
      ring

theorem length_Collect (store : Store) :
    (Collect store).length = 12 * recordCount store := by
  induction store with
  | nil => rfl
  | cons p rest ih =>
      obtain ⟨ident, ms⟩ := p
      simp only [Collect, recordCount, List.flatMap_cons, List.length_append,
        List.map_cons, List.sum_cons] at *
      rw [length_flatMap_collectRecord, ih]
      ring

theorem collectRecord_sample_shape (ident : String) (m : Metric) :
    ∀ s ∈ collectRecord ident m,
      s.vtype = ValueType.counter ∧ s.name ≠ MetricName.uptime ∧
      ∃ proto, proto ∈ (["tcp", "udp", "icmp", "other"] : List String) ∧
        s.labels = [ident, Nat.repr m.exporterID, proto] := by
  intro s hs
  simp only [collectRecord, List.mem_cons, List.not_mem_nil, or_false] at hs
  rcases hs with h | h | h | h | h | h | h | h | h | h | h | h <;> subst h <;>
    refine ⟨rfl, by simp, ?_⟩ <;>
    first
      | exact ⟨"tcp", by simp, rfl⟩
      | exact ⟨"udp", by simp, rfl⟩
      | exact ⟨"icmp", by simp, rfl⟩
      | exact ⟨"other", by simp, rfl⟩

theorem mem_Collect (store : Store) (s : Sample) (h : s ∈ Collect store) :
    ∃ p ∈ store, ∃ m ∈ p.2, s ∈ collectRecord p.1 m := by
  simpa only [Collect, List.mem_flatMap] using h

theorem find_upsertRecords (ms : List Metric) (m : Metric) :
    (upsertRecords ms m).find? (fun x => x.exporterID == m.exporterID) = some m := by
  induction ms with
  | nil => simp [upsertRecords, List.find?]
  | cons x rest ih =>
      by_cases h : x.exporterID = m.exporterID
      · simp [upsertRecords, h, List.find?]
      · simp [upsertRecords, h, List.find?, ih]

theorem lookupRecord_Upsert (s : Store) (ident : String) (m : Metric) :
    lookupRecord (Upsert s ident m) ident m.exporterID = some m := by
  induction s with
  | nil => simp [Upsert, lookupRecord, List.find?]
  | cons p rest ih =>
      obtain ⟨i, ms⟩ := p
      by_cases h : i = ident
      · subst h
        simp [Upsert, lookupRecord, find_upsertRecords]
      · simp [Upsert, lookupRecord, h, ih]

theorem keys_Upsert_mem (s : Store) (ident j : String) (m : Metric)
    (h : j ∈ (Upsert s ident m).map Prod.fst) :
    j ∈ s.map Prod.fst ∨ j = ident := by
  induction s with
  | nil =>
      simp [Upsert] at h
      simp [h]
  | cons p rest ih =>
      obtain ⟨i, ms⟩ := p
      by_cases hi : i = ident
      · left
        have hup : Upsert ((i, ms) :: rest) ident m = (i, upsertRecords ms m) :: rest := by
          simp [Upsert, hi]
        rw [hup] at h
        simpa using h
      · simp only [Upsert, if_neg hi, List.map_cons, List.mem_cons] at h
        rcases h with h | h
        · exact Or.inl (by simp [h])
        · rcases ih h with h2 | h2
          · exact Or.inl (by simp [h2])
          · exact Or.inr h2

theorem mem_map_eid_upsertRecords (ms : List Metric) (m : Metric) (e : Nat)
    (h : e ∈ (upsertRecords ms m).map Metric.exporterID) :
    e ∈ ms.map Metric.exporterID ∨ e = m.exporterID := by
  induction ms with
  | nil =>
      simp [upsertRecords] at h
      simp [h]
  | cons x rest ih =>
      by_cases hx : x.exporterID = m.exporterID
      · simp only [upsertRecords, if_pos hx, List.map_cons, List.mem_cons] at h
        rcases h with h | h
        · exact Or.inr h
        · exact Or.inl (by simp [h])
      · simp only [upsertRecords, if_neg hx, List.map_cons, List.mem_cons] at h
        rcases h with h | h
        · exact Or.inl (by simp [h])
        · rcases ih h with h2 | h2
          · exact Or.inl (by simp [h2])
          · exact Or.inr h2

theorem nodup_upsertRecords (ms : List Metric) (m : Metric)
    (h : (ms.map Metric.exporterID).Nodup) :
    ((upsertRecords ms m).map Metric.exporterID).Nodup := by
  induction ms with
  | nil => simp [upsertRecords]
  | cons x rest ih =>
      simp only [List.map_cons, List.nodup_cons] at h
      obtain ⟨hx, hrest⟩ := h
      by_cases he : x.exporterID = m.exporterID
      · simp only [upsertRecords, if_pos he, List.map_cons, List.nodup_cons]
        exact ⟨he ▸ hx, hrest⟩
      · simp only [upsertRecords, if_neg he, List.map_cons, List.nodup_cons]
        refine ⟨fun hmem => ?_, ih hrest⟩
        rcases mem_map_eid_upsertRecords rest m _ hmem with h2 | h2
        · exact hx h2
        · exact he h2

theorem WFStore_Upsert (s : Store) (ident : String) (m : Metric)
    (h : WFStore s) : WFStore (Upsert s ident m) := by
  induction s with
  | nil =>
      refine ⟨by simp [Upsert], ?_⟩
      intro p hp
      simp [Upsert] at hp
      simp [hp]
  | cons q rest ih =>
      obtain ⟨i, ms⟩ := q
      obtain ⟨hkeys, hrecs⟩ := h
      simp only [List.map_cons, List.nodup_cons] at hkeys
      obtain ⟨hnotin, hkrest⟩ := hkeys
      by_cases hi : i = ident
      · have hup : Upsert ((i, ms) :: rest) ident m = (i, upsertRecords ms m) :: rest := by
          simp [Upsert, hi]
        rw [hup]
        refine ⟨by simpa using List.nodup_cons.mpr ⟨hnotin, hkrest⟩, ?_⟩
        intro p hp
        rcases List.mem_cons.mp hp with hp | hp
        · subst hp
          exact nodup_upsertRecords ms m (hrecs (i, ms) (by simp))
        · exact hrecs p (List.mem_cons_of_mem _ hp)
      · have ihWF : WFStore (Upsert rest ident m) :=
          ih ⟨hkrest, fun p hp => hrecs p (List.mem_cons_of_mem _ hp)⟩
        refine ⟨?_, ?_⟩
        · simp only [Upsert, if_neg hi, List.map_cons, List.nodup_cons]
          refine ⟨fun hmem => ?_, ihWF.1⟩
          rcases keys_Upsert_mem rest ident i m hmem with h2 | h2
          · exact hnotin h2
          · exact hi h2
        · intro p hp
          simp only [Upsert, if_neg hi, List.mem_cons] at hp
          rcases hp with hp | hp
          · subst hp
            exact hrecs (i, ms) (by simp)
          · exact ihWF.2 p hp

theorem upsertRecords_of_find (ms : List Metric) (m : Metric)
    (h : ms.find? (fun x => x.exporterID == m.exporterID) = some m) :
    upsertRecords ms m = ms := by
  induction ms with
  | nil => simp [List.find?] at h
  | cons x rest ih =>
      by_cases hx : x.exporterID = m.exporterID
      · have hbeq : (x.exporterID == m.exporterID) = true := by simp [hx]
        have hxm : x = m := by
          have h3 := h
          simp only [List.find?, hbeq, Option.some.injEq] at h3
          exact h3
        simp [upsertRecords, hx, hxm]
      · have hbeq : (x.exporterID == m.exporterID) = false := by simp [hx]
        have h2 : rest.find? (fun y => y.exporterID == m.exporterID) = some m := by
          have h3 := h
          simp only [List.find?, hbeq] at h3
          exact h3
        simp [upsertRecords, hx, ih h2]

/-- C3: after two upserts A then B for the same (ident, exporterID)
pair on a well-formed store, looking the pair up yields exactly the
record B (never A, never a sum of the two), and the resulting store is
again well-formed, so the pair identifies at most one record. -/
theorem C3_last_write_wins (s : Store) (ident : String) (A B : Metric)
    (hWF : WFStore s) (_heid : A.exporterID = B.exporterID) :
    lookupRecord (Upsert (Upsert s ident A) ident B) ident B.exporterID = some B ∧
    WFStore (Upsert (Upsert s ident A) ident B) :=
  ⟨lookupRecord_Upsert (Upsert s ident A) ident B,
   WFStore_Upsert (Upsert s ident A) ident B (WFStore_Upsert s ident A hWF)⟩

/-- Witness for C3 at the end-to-end scenario of the spec: after
reporting tcp flows 100 and then 150 for (live, 7), the stored record
has tcp flows 150. -/
theorem C3_last_write_wins_witness :
    lookupRecord (Upsert (Upsert c1store "live" c3A) "live" c3B) "live"
      c3B.exporterID = some c3B ∧
    c3B.numFlows_tcp = 150 ∧ c3A.numFlows_tcp = 100 :=
  ⟨(C3_last_write_wins c1store "live" c3A c3B
      (by unfold WFStore; decide) (by decide)).1, rfl, rfl⟩

/-- C9: re-upserting a record that the store already holds for its
(ident, exporterID) pair leaves the store unchanged, hence every
subsequent collection is unchanged as well. -/
theorem C9_upsert_idempotent (s : Store) (ident : String) (m : Metric)
    (h : lookupRecord s ident m.exporterID = some m) :
    Upsert s ident m = s ∧ Collect (Upsert s ident m) = Collect s := by
  have h1 : Upsert s ident m = s := by
    induction s with
    | nil => simp [lookupRecord] at h
    | cons p rest ih =>
        obtain ⟨i, ms⟩ := p
        by_cases hi : i = ident
        · have hfind : ms.find? (fun x => x.exporterID == m.exporterID) = some m := by
            simpa [lookupRecord, hi] using h
          simp [Upsert, hi, upsertRecords_of_find ms m hfind]
        · have h2 : lookupRecord rest ident m.exporterID = some m := by
            simpa [lookupRecord, hi] using h
          simp [Upsert, hi, ih h2]
  exact ⟨h1, by rw [h1]⟩

/-- Witness for C9: re-upserting the record already stored for
(live, 7) leaves the concrete store unchanged. -/
theorem C9_upsert_idempotent_witness :
    Upsert c1store "live" c1metric = c1store :=
  (C9_upsert_idempotent c1store "live" c1metric (by decide)).1

/-- C1: the spec requires the four byte-counter samples to be sourced
from the byte fields, but in main.go lines 136-137 the bytes samples
for the icmp and other classes read the packet fields: on a record
whose byte counter for icmp is 5 and whose packet counter for icmp is
7, `Collect` emits the bytes/icmp sample with value 7, and likewise 13
instead of 11 for the other class. -/
theorem C1_bytes_sourced_from_packets :
    (Collect c1store)[10]? =
      some { name := MetricName.bytes, vtype := ValueType.counter,
             value := 7, labels := ["live", "7", "icmp"] } ∧
    (Collect c1store)[11]? =
      some { name := MetricName.bytes, vtype := ValueType.counter,
             value := 13, labels := ["live", "7", "other"] } ∧
    c1metric.numBytes_icmp = 5 ∧ c1metric.numPackets_icmp = 7 ∧
    c1metric.numBytes_other = 11 ∧ c1metric.numPackets_other = 13 := by
  refine ⟨?_, ?_, rfl, rfl, rfl, rfl⟩ <;> decide

/-- C5: on the empty store `Collect` emits zero samples and its trace
is just the mutex acquisition and release. -/
theorem C5_empty_store_collect :
    Collect ([] : Store) = [] ∧
    CollectTrace ([] : Store) = [CollectEvent.lock, CollectEvent.unlock] := by
  exact ⟨rfl, rfl⟩

/-- C6: `Describe` is the fixed list of the four metric descriptions,
independent of any store state, and the flows, packets and bytes
counter descriptions each carry the variable labels ident, exporter
and proto. -/
theorem C6_describe_static :
    Describe = [uptime, flowsReceived, packetsReceived, bytesReceived] ∧
    uptime ∈ Describe ∧
    flowsReceived.variableLabels = ["ident", "exporter", "proto"] ∧
    packetsReceived.variableLabels = ["ident", "exporter", "proto"] ∧
    bytesReceived.variableLabels = ["ident", "exporter", "proto"] := by
  refine ⟨rfl, ?_, rfl, rfl, rfl⟩
  simp [Describe]

/-- C7: when the socket bind fails, `main` ends with a fatal exit of
status 1 (non-zero) and no HTTP setup or listen event ever occurs in
its trace. -/
theorem C7_bind_failure_fatal (err : String) :
    mainTrace (some err) =
      [MainEvent.flagParse, MainEvent.registerExporter,
       MainEvent.socketOpen, MainEvent.fatalExit 1] ∧
    (1 : Nat) ≠ 0 ∧
    MainEvent.httpHandle ∉ mainTrace (some err) ∧
    MainEvent.httpListen ∉ mainTrace (some err) := by
  refine ⟨rfl, by decide, ?_, ?_⟩ <;> simp [mainTrace]

/-- C8: on an interrupt or termination signal the handler closes the
listener, then removes the socket path, then exits with status 0, in
that order, and the exit is the last event. -/
theorem C8_shutdown_sequence (path : String) :
    (closeHandlerOnSignal path)[1]? = some ShutdownEvent.closeListener ∧
    (closeHandlerOnSignal path)[2]? = some (ShutdownEvent.removeFile path) ∧
    (closeHandlerOnSignal path)[3]? = some (ShutdownEvent.exitProcess 0) ∧
    (closeHandlerOnSignal path).getLast? = some (ShutdownEvent.exitProcess 0) := by
  exact ⟨rfl, rfl, rfl, rfl⟩

/-- C2 fails on the code: a store holding one record makes `Collect`
emit exactly 12 samples, none of which is an uptime sample, while the
claim promises 12 counter samples plus one uptime gauge sample per
record. -/
theorem C2_no_uptime_sample :
    (Collect c1store).length = 12 ∧
    (Collect c1store).countP (fun s => s.name == MetricName.uptime) = 0 ∧
    c1store ≠ [] := by decide

/-- C2 amended: for every store, `Collect` emits exactly 12 counter
samples per record, labeled by ident, the exporterID rendered as a
decimal string, and the protocol class; it emits no uptime sample at
all. -/
theorem C2_twelve_counter_samples (store : Store) :
    (Collect store).length = 12 * recordCount store ∧
    (∀ s ∈ Collect store, s.vtype = ValueType.counter ∧ s.name ≠ MetricName.uptime) ∧
    (∀ ident ms, (ident, ms) ∈ store → ∀ m ∈ ms, ∀ s ∈ collectRecord ident m,
      s.vtype = ValueType.counter ∧
      ∃ proto, proto ∈ (["tcp", "udp", "icmp", "other"] : List String) ∧
        s.labels = [ident, Nat.repr m.exporterID, proto]) := by
  refine ⟨length_Collect store, ?_, ?_⟩
  · intro s hs
    obtain ⟨p, hp, m, hm, h3⟩ := mem_Collect store s hs
    obtain ⟨h4, h5, _⟩ := collectRecord_sample_shape p.1 m s h3
    exact ⟨h4, h5⟩
  · intro ident ms _ m _ s hs
    obtain ⟨h4, _, h6⟩ := collectRecord_sample_shape ident m s hs
    exact ⟨h4, h6⟩

/-- Witness for the amended C2 at a concrete store: the first sample
of the record held for (live, 7) is a counter labeled by ident, the
decimal exporterID and a protocol class. -/
theorem C2_twelve_counter_samples_witness :
    c2sample.vtype = ValueType.counter ∧
    ∃ proto, proto ∈ (["tcp", "udp", "icmp", "other"] : List String) ∧
      c2sample.labels = ["live", Nat.repr c1metric.exporterID, proto] :=
  (C2_twelve_counter_samples c1store).2.2 "live" [c1metric] (by decide)
    c1metric (by decide) c2sample (by decide)

/-- C10: every sample value `Collect` emits is the stored 64-bit
counter converted to a float64; the conversion is exact for every
value at or below `2 ^ 53` and rounds to a nearby representable value
above it, as witnessed by `2 ^ 53 + 1`. -/
theorem C10_float64_conversion :
    (∀ ident m, (collectRecord ident m).map Sample.value =
      [float64ofUInt64 m.numFlows_tcp, float64ofUInt64 m.numFlows_udp,
       float64ofUInt64 m.numFlows_icmp, float64ofUInt64 m.numFlows_other,
       float64ofUInt64 m.numPackets_tcp, float64ofUInt64 m.numPackets_udp,
       float64ofUInt64 m.numPackets_icmp, float64ofUInt64 m.numPackets_other,
       float64ofUInt64 m.numBytes_tcp, float64ofUInt64 m.numBytes_udp,
       float64ofUInt64 m.numPackets_icmp, float64ofUInt64 m.numPackets_other]) ∧
    (∀ n, n ≤ 2 ^ 53 → float64ofUInt64 n = n) ∧
    (2 ^ 53 < 2 ^ 53 + 1 ∧ float64ofUInt64 (2 ^ 53 + 1) ≠ 2 ^ 53 + 1) := by
  refine ⟨fun ident m => rfl, fun n h => ?_, by norm_num, by decide⟩
  rcases Nat.lt_or_ge n (2 ^ 53) with hlt | hge
  · simp [float64ofUInt64, f64exp_eq_zero n hlt]
  · have heq : n = 2 ^ 53 := le_antisymm h hge
    subst heq
    decide

/-- Witness for C10: a value below `2 ^ 53` converts exactly. -/
theorem C10_float64_conversion_witness :
    float64ofUInt64 5000 = 5000 :=
  C10_float64_conversion.2.1 5000 (by norm_num)

theorem count_lock_take_map_send (l : List Sample) (j : Nat) :
    ((l.map CollectEvent.send).take j).count CollectEvent.lock = 0 := by
  rw [List.count_eq_zero]
  intro hmem
  have h2 := List.take_subset _ _ hmem
  simp [List.mem_map] at h2

theorem count_unlock_take_map_send (l : List Sample) (j : Nat) :
    ((l.map CollectEvent.send).take j).count CollectEvent.unlock = 0 := by
  rw [List.count_eq_zero]
  intro hmem
  have h2 := List.take_subset _ _ hmem
  simp [List.mem_map] at h2

/-- C4 fails on the code: `Collect` takes no point-in-time copy; it
iterates the live mapping and performs channel sends while holding
the store's mutex, as the trace on a one-record store shows: the
second event is already a send, yet one lock and no unlock precede
it. -/
theorem C4_send_while_locked :
    (CollectTrace c1store)[1]? = some (CollectEvent.send c2sample) ∧
    ((CollectTrace c1store).take 1).count CollectEvent.lock = 1 ∧
    ((CollectTrace c1store).take 1).count CollectEvent.unlock = 0 ∧
    (CollectTrace c1store).getLast? = some CollectEvent.unlock := by decide

/-- C4 amended: `Collect` holds the store's mutex for the entire
iteration: its trace opens with the lock, closes with the unlock, and
every sample send happens at a point where the lock has been taken
and not yet released. -/
theorem C4_collect_emits_under_lock (store : Store) :
    (CollectTrace store).head? = some CollectEvent.lock ∧
    (CollectTrace store).getLast? = some CollectEvent.unlock ∧
    ∀ i s, (CollectTrace store)[i]? = some (CollectEvent.send s) →
      ((CollectTrace store).take i).count CollectEvent.lock = 1 ∧
      ((CollectTrace store).take i).count CollectEvent.unlock = 0 := by
  refine ⟨rfl, ?_, ?_⟩
  · rw [CollectTrace]
    exact List.getLast?_concat _
  · intro i s h
    cases i with
    | zero => exact absurd h (by simp [CollectTrace])
    | succ j =>
        have hL : ((Collect store).map CollectEvent.send ++
            [CollectEvent.unlock])[j]? = some (CollectEvent.send s) := by
          simpa [CollectTrace] using h
        have hjlt : j < ((Collect store).map CollectEvent.send).length := by
          by_contra hge
          push_neg at hge
          rw [List.getElem?_append_right hge] at hL
          rcases Nat.lt_or_ge (j - ((Collect store).map CollectEvent.send).length) 1
            with h1 | h1
          · rw [Nat.lt_one_iff.mp h1] at hL
            simp at hL
          · rw [List.getElem?_eq_none (by simpa using h1)] at hL
            exact Option.noConfusion hL
        have htake : (CollectTrace store).take (j + 1) =
            CollectEvent.lock :: ((Collect store).map CollectEvent.send).take j := by
          show (CollectEvent.lock :: ((Collect store).map CollectEvent.send ++
            [CollectEvent.unlock])).take (j + 1) = _
          rw [List.take_succ_cons, List.take_append_of_le_length (le_of_lt hjlt)]
        rw [htake]
        constructor
        · simp [List.count_cons, count_lock_take_map_send]
        · simp [List.count_cons, count_unlock_take_map_send]

/-- Witness for the amended C4: on the one-record store the send at
position 1 happens with the lock taken and not released. -/
theorem C4_collect_emits_under_lock_witness :
    ((CollectTrace c1store).take 1).count CollectEvent.lock = 1 ∧
    ((CollectTrace c1store).take 1).count CollectEvent.unlock = 0 :=
  (C4_collect_emits_under_lock c1store).2.2 1 c2sample (by decide)

end Nfexporter
